import Mathlib

/-!
Shallow embedding of the `substrate-account-filter` pallet
(`frame/account-filter/src/lib.rs`): an allow-list of accounts grown by
quorum voting, plus a signed-extension admission gate.

Storage:
  `AllowedAccounts : StorageMap AccountId ()` is modelled as a `Finset`
  of account ids (the key set; `contains_key` is membership,
  `iter().count()` is `card`, `insert` is `Finset.insert`).
  `Votes : StorageDoubleMap AccountId AccountId ()` is modelled as a list
  of `(candidate, voter)` key pairs; per-candidate iteration
  (`iter_prefix` / `drain_prefix`) follows the order of the list.
-/

namespace AccountFilter

/-- Dispatch errors of the pallet (`Error<T>` in the source). -/
inductive VoteError where
  | AlreadyAllowed
  | DuplicateVote
  | NotAllowedToVote
  deriving DecidableEq, Repr

/-- Events deposited by the pallet (`Event<T>` in the source). -/
inductive Event (A : Type) where
  | AccountAllowed (account : A) (voted_for : List A)
  | AccountVoted (referrer : A) (referee : A)
  deriving DecidableEq, Repr

/-- Storage of the pallet: the allow-list key set and the vote ledger of
`(candidate, voter)` key pairs. -/
structure PalletState (A : Type) where
  allowedAccounts : Finset A
  votes : List (A × A)
  deriving DecidableEq

/-- Outcome of one dispatchable call: the storage after the call, the
events deposited by it (in deposit order), and the dispatch result
(`none` for `Ok`). In the source the `ensure!` macro returns before any write,
so the error outcomes carry the input state and no events. -/
structure CallOutcome (A : Type) where
  state : PalletState A
  events : List (Event A)
  result : Option VoteError
  deriving DecidableEq

variable {A : Type} [DecidableEq A]

/-- The voters recorded for `candidate`, in ledger iteration order:
`Votes::iter_prefix(candidate).map(|(k, _)| k)` in the source. -/
def votersFor (s : PalletState A) (candidate : A) : List A :=
  (s.votes.filter (fun p => p.1 = candidate)).map Prod.snd

/-- Model of `Percent::from_rational(p, q)` from `sp_arithmetic`: rounds down, and
saturates to `one()` (100) when the denominator is zero or the numerator
exceeds the denominator (`from_rational_with_rounding` returns `Err`
there and the caller falls back to `one()`). -/
def percentFromRational (p q : Nat) : Nat :=
  if q = 0 then 100
  else if q < p then 100
  else p * 100 / q

/-- The `vote_for_account` dispatchable, for an already signed origin
`account` voting for `new_account`, with `threshold` the configured
`T::VotesToAllow` percentage. Mirrors the source line by line:
three `ensure!` guards, then the quorum test
`Percent::from_rational(votes_for, votes_required) >= T::VotesToAllow::get()`
with `votes_for = Votes::iter_prefix(new_account).count() + 1` and
`votes_required = AllowedAccounts::iter().count()`; on promotion the
candidate is inserted, its ledger entries drained into `voted_for` with
the casting voter chained last, and two events deposited; otherwise the
vote is recorded and one event deposited. -/
def vote_for_account (threshold : Nat) (s : PalletState A)
    (account new_account : A) : CallOutcome A :=
  if account ∉ s.allowedAccounts then
    ⟨s, [], some VoteError.NotAllowedToVote⟩
  else if new_account ∈ s.allowedAccounts then
    ⟨s, [], some VoteError.AlreadyAllowed⟩
  else if (new_account, account) ∈ s.votes then
    ⟨s, [], some VoteError.DuplicateVote⟩
  else if threshold ≤ percentFromRational ((votersFor s new_account).length + 1)
      s.allowedAccounts.card then
    ⟨⟨insert new_account s.allowedAccounts,
      s.votes.filter (fun p => p.1 ≠ new_account)⟩,
     [Event.AccountVoted account new_account,
      Event.AccountAllowed new_account (votersFor s new_account ++ [account])],
     none⟩
  else
    ⟨⟨s.allowedAccounts, s.votes ++ [(new_account, account)]⟩,
     [Event.AccountVoted account new_account],
     none⟩

/-- Rejection of the signed-extension gate (`InvalidTransaction::BadSigner`). -/
inductive TxError where
  | BadSigner
  deriving DecidableEq, Repr

/-- The fields of `ValidTransaction` the gate sets: `priority`,
`longevity` and `propagate` (`requires` and `provides` stay at their
default, the empty list, and are elided). -/
structure ValidTransaction where
  priority : Nat
  longevity : Nat
  propagate : Bool
  deriving DecidableEq, Repr

/-- Value of `TransactionLongevity::max_value()`: the largest `u64`. -/
def transactionLongevityMax : Nat := 2 ^ 64 - 1

/-- Model of `AllowAccount::validate` from the `SignedExtension` impl: if the call
is matched by `T::CallsToFilter` and the signer is not in the allow-list,
reject with `BadSigner`; otherwise accept with priority
`info.weight.ref_time()`, maximal longevity and `propagate = true`.
`matchesCall` is the host-supplied `BlockCallMatcher` predicate over an
opaque call type `C`, and `refTime` is the declared weight of the call. -/
def validate {C : Type} (matchesCall : C → Bool) (allowed : Finset A)
    (who : A) (call : C) (refTime : Nat) : Except TxError ValidTransaction :=
  if matchesCall call ∧ who ∉ allowed then
    Except.error TxError.BadSigner
  else
    Except.ok ⟨refTime, transactionLongevityMax, true⟩

/-- Model of `AllowAccount::pre_dispatch`: delegates to `validate` and drops the
metadata. -/
def pre_dispatch {C : Type} (matchesCall : C → Bool) (allowed : Finset A)
    (who : A) (call : C) (refTime : Nat) : Except TxError Unit :=
  (validate matchesCall allowed who call refTime).map (fun _ => ())

/-- States reachable from some genesis content of the allow-list (the
vote ledger starts empty; `initialize_allowed_accounts` only fills
`AllowedAccounts`) by any sequence of `vote_for_account` calls. -/
inductive Reachable (threshold : Nat) : PalletState A → Prop where
  | genesis (accounts : Finset A) : Reachable threshold ⟨accounts, []⟩
  | step {s : PalletState A} (voter candidate : A) :
      Reachable threshold s →
      Reachable threshold (vote_for_account threshold s voter candidate).state

/-- The ledger invariant maintained by the pallet: every recorded pair
has a member voter and a non-member candidate, and no pair occurs twice. -/
def Inv (s : PalletState A) : Prop :=
  (∀ p ∈ s.votes, p.2 ∈ s.allowedAccounts ∧ p.1 ∉ s.allowedAccounts) ∧
    s.votes.Nodup

/-- Branch characterization: the first guard fails. -/
theorem vote_eq_of_not_allowed (threshold : Nat) (s : PalletState A)
    (account new_account : A) (h1 : account ∉ s.allowedAccounts) :
    vote_for_account threshold s account new_account =
      ⟨s, [], some VoteError.NotAllowedToVote⟩ := by
  unfold vote_for_account
  rw [if_pos h1]

/-- Branch characterization: the second guard fails. -/
theorem vote_eq_of_already_allowed (threshold : Nat) (s : PalletState A)
    (account new_account : A) (h1 : account ∈ s.allowedAccounts)
    (h2 : new_account ∈ s.allowedAccounts) :
    vote_for_account threshold s account new_account =
      ⟨s, [], some VoteError.AlreadyAllowed⟩ := by
  unfold vote_for_account
  rw [if_neg (not_not_intro h1), if_pos h2]

/-- Branch characterization: the third guard fails. -/
theorem vote_eq_of_duplicate (threshold : Nat) (s : PalletState A)
    (account new_account : A) (h1 : account ∈ s.allowedAccounts)
    (h2 : new_account ∉ s.allowedAccounts)
    (h3 : (new_account, account) ∈ s.votes) :
    vote_for_account threshold s account new_account =
      ⟨s, [], some VoteError.DuplicateVote⟩ := by
  unfold vote_for_account
  rw [if_neg (not_not_intro h1), if_neg h2, if_pos h3]

/-- Branch characterization: all guards pass and the quorum is met. -/
theorem vote_eq_of_promote (threshold : Nat) (s : PalletState A)
    (account new_account : A) (h1 : account ∈ s.allowedAccounts)
    (h2 : new_account ∉ s.allowedAccounts)
    (h3 : (new_account, account) ∉ s.votes)
    (hq : threshold ≤ percentFromRational ((votersFor s new_account).length + 1)
      s.allowedAccounts.card) :
    vote_for_account threshold s account new_account =
      ⟨⟨insert new_account s.allowedAccounts,
        s.votes.filter (fun p => p.1 ≠ new_account)⟩,
       [Event.AccountVoted account new_account,
        Event.AccountAllowed new_account (votersFor s new_account ++ [account])],
       none⟩ := by
  unfold vote_for_account
  rw [if_neg (not_not_intro h1), if_neg h2, if_neg h3, if_pos hq]

/-- Branch characterization: all guards pass and the quorum is not met. -/
theorem vote_eq_of_record (threshold : Nat) (s : PalletState A)
    (account new_account : A) (h1 : account ∈ s.allowedAccounts)
    (h2 : new_account ∉ s.allowedAccounts)
    (h3 : (new_account, account) ∉ s.votes)
    (hq : ¬ threshold ≤ percentFromRational ((votersFor s new_account).length + 1)
      s.allowedAccounts.card) :
    vote_for_account threshold s account new_account =
      ⟨⟨s.allowedAccounts, s.votes ++ [(new_account, account)]⟩,
       [Event.AccountVoted account new_account],
       none⟩ := by
  unfold vote_for_account
  rw [if_neg (not_not_intro h1), if_neg h2, if_neg h3, if_neg hq]

/-- The quorum comparison of the source decides the exact cross-multiplied
rational comparison, whenever the denominator is positive and the
threshold is a genuine percentage. -/
theorem threshold_le_percent_iff (t vf vr : Nat) (hvr : 0 < vr)
    (ht : t ≤ 100) :
    t ≤ percentFromRational vf vr ↔ vr * t ≤ vf * 100 := by
  unfold percentFromRational
  rw [if_neg (Nat.pos_iff_ne_zero.mp hvr)]
  by_cases hlt : vr < vf
  · rw [if_pos hlt]
    constructor
    · intro _
      exact Nat.mul_le_mul (Nat.le_of_lt hlt) ht
    · intro _
      exact ht
  · rw [if_neg hlt]
    rw [Nat.le_div_iff_mul_le hvr, Nat.mul_comm]

/-- Membership in `votersFor` is exactly a recorded vote pair. -/
theorem mem_votersFor {s : PalletState A} {c v : A} :
    v ∈ votersFor s c ↔ (c, v) ∈ s.votes := by
  unfold votersFor
  simp only [List.mem_map, List.mem_filter, decide_eq_true_eq]
  constructor
  · rintro ⟨⟨p1, p2⟩, ⟨hp, hc⟩, hv⟩
    simp only at hc hv
    rw [← hc, ← hv]
    exact hp
  · intro hv
    exact ⟨(c, v), ⟨hv, rfl⟩, rfl⟩

/-- A duplicate-free ledger yields duplicate-free voter lists. -/
theorem nodup_votersFor {s : PalletState A} (h : s.votes.Nodup) (c : A) :
    (votersFor s c).Nodup := by
  unfold votersFor
  refine List.Nodup.map_on ?_ (h.filter _)
  intro x hx y hy hxy
  rw [List.mem_filter, decide_eq_true_eq] at hx hy
  exact Prod.ext (hx.2.trans hy.2.symm) hxy

/-- A member has no recorded votes as candidate, given the ledger
invariant. -/
theorem votersFor_eq_nil_of_mem {s : PalletState A} (h : Inv s) {a : A}
    (ha : a ∈ s.allowedAccounts) : votersFor s a = [] := by
  unfold votersFor
  rw [List.map_eq_nil_iff, List.filter_eq_nil_iff]
  intro p hp
  rw [decide_eq_true_eq]
  intro hpc
  exact (h.1 p hp).2 (hpc ▸ ha)

/-- One `vote_for_account` call preserves the ledger invariant. -/
theorem inv_step (threshold : Nat) (s : PalletState A)
    (voter candidate : A) (h : Inv s) :
    Inv (vote_for_account threshold s voter candidate).state := by
  by_cases h1 : voter ∈ s.allowedAccounts
  · by_cases h2 : candidate ∈ s.allowedAccounts
    · rw [vote_eq_of_already_allowed threshold s voter candidate h1 h2]
      exact h
    · by_cases h3 : (candidate, voter) ∈ s.votes
      · rw [vote_eq_of_duplicate threshold s voter candidate h1 h2 h3]
        exact h
      · by_cases h4 : threshold ≤
            percentFromRational ((votersFor s candidate).length + 1)
              s.allowedAccounts.card
        · rw [vote_eq_of_promote threshold s voter candidate h1 h2 h3 h4]
          refine ⟨fun p hp => ?_, ?_⟩
          · have hp2 : p ∈ s.votes.filter (fun q => q.1 ≠ candidate) := hp
            rw [List.mem_filter, decide_eq_true_eq] at hp2
            obtain ⟨hv, hc⟩ := h.1 p hp2.1
            show p.2 ∈ insert candidate s.allowedAccounts ∧
              p.1 ∉ insert candidate s.allowedAccounts
            refine ⟨Finset.mem_insert_of_mem hv, ?_⟩
            rw [Finset.mem_insert]
            rintro (hpc | hpc)
            · exact hp2.2 hpc
            · exact hc hpc
          · show (s.votes.filter (fun q => q.1 ≠ candidate)).Nodup
            exact h.2.filter _
        · rw [vote_eq_of_record threshold s voter candidate h1 h2 h3 h4]
          refine ⟨fun p hp => ?_, ?_⟩
          · have hp2 : p ∈ s.votes ++ [(candidate, voter)] := hp
            rw [List.mem_append] at hp2
            show p.2 ∈ s.allowedAccounts ∧ p.1 ∉ s.allowedAccounts
            rcases hp2 with hp2 | hp2
            · exact h.1 p hp2
            · rw [List.mem_singleton] at hp2
              subst hp2
              exact ⟨h1, h2⟩
          · show (s.votes ++ [(candidate, voter)]).Nodup
            rw [List.nodup_append]
            refine ⟨h.2, List.nodup_singleton _, ?_⟩
            intro p hp hq
            rw [List.mem_singleton] at hq
            subst hq
            exact h3 hp
  · rw [vote_eq_of_not_allowed threshold s voter candidate h1]
    exact h

/-- Every reachable state satisfies the ledger invariant. -/
theorem inv_of_reachable {threshold : Nat} {s : PalletState A}
    (h : Reachable threshold s) : Inv s := by
  induction h with
  | genesis accounts =>
    exact ⟨fun p hp => absurd hp (List.not_mem_nil p), List.nodup_nil⟩
  | step voter candidate _ ih =>
    exact inv_step _ _ _ _ ih

/-- Membership only grows: any `vote_for_account` call, succeeding or
failing, keeps every existing member in the allow-list. -/
theorem allowed_monotone (threshold : Nat) (s : PalletState A)
    (voter candidate a : A) (ha : a ∈ s.allowedAccounts) :
    a ∈ (vote_for_account threshold s voter candidate).state.allowedAccounts := by
  by_cases h1 : voter ∈ s.allowedAccounts
  · by_cases h2 : candidate ∈ s.allowedAccounts
    · rw [vote_eq_of_already_allowed threshold s voter candidate h1 h2]
      exact ha
    · by_cases h3 : (candidate, voter) ∈ s.votes
      · rw [vote_eq_of_duplicate threshold s voter candidate h1 h2 h3]
        exact ha
      · by_cases h4 : threshold ≤
            percentFromRational ((votersFor s candidate).length + 1)
              s.allowedAccounts.card
        · rw [vote_eq_of_promote threshold s voter candidate h1 h2 h3 h4]
          exact Finset.mem_insert_of_mem ha
        · rw [vote_eq_of_record threshold s voter candidate h1 h2 h3 h4]
          exact ha
  · rw [vote_eq_of_not_allowed threshold s voter candidate h1]
    exact ha

/-- Claim C1: when all three guards pass, `vote_for_account` promotes the
candidate if and only if `votesFor * 100 ≥ votesRequired * threshold`,
with `votesFor` the recorded distinct voters plus the vote being cast and
`votesRequired` the allow-list size read before any mutation; the
`Percent::from_rational` comparison decides exactly this predicate. -/
theorem vote_promotes_iff_cross_multiplication (threshold : Nat)
    (s : PalletState A) (voter candidate : A) (ht : threshold ≤ 100)
    (h1 : voter ∈ s.allowedAccounts) (h2 : candidate ∉ s.allowedAccounts)
    (h3 : (candidate, voter) ∉ s.votes) :
    candidate ∈
        (vote_for_account threshold s voter candidate).state.allowedAccounts ↔
      ((votersFor s candidate).length + 1) * 100 ≥
        s.allowedAccounts.card * threshold := by
  have hvr : 0 < s.allowedAccounts.card := Finset.card_pos.mpr ⟨voter, h1⟩
  rw [ge_iff_le,
    ← threshold_le_percent_iff threshold ((votersFor s candidate).length + 1)
      s.allowedAccounts.card hvr ht]
  by_cases h4 : threshold ≤
      percentFromRational ((votersFor s candidate).length + 1)
        s.allowedAccounts.card
  · rw [vote_eq_of_promote threshold s voter candidate h1 h2 h3 h4]
    exact iff_of_true (Finset.mem_insert_self candidate s.allowedAccounts) h4
  · rw [vote_eq_of_record threshold s voter candidate h1 h2 h3 h4]
    exact iff_of_false h2 h4

/-- Claim C1 witness: membership `{1, 2, 3}`, threshold 51, voter 1,
candidate 4 with no prior votes. -/
theorem vote_promotes_iff_cross_multiplication_witness :
    (51 : Nat) ≤ 100 ∧
    (1 : ℕ) ∈ (⟨{1, 2, 3}, []⟩ : PalletState ℕ).allowedAccounts ∧
    (4 : ℕ) ∉ (⟨{1, 2, 3}, []⟩ : PalletState ℕ).allowedAccounts ∧
    ((4, 1) : ℕ × ℕ) ∉ (⟨{1, 2, 3}, []⟩ : PalletState ℕ).votes ∧
    ((4 : ℕ) ∈ (vote_for_account 51 (⟨{1, 2, 3}, []⟩ : PalletState ℕ)
        1 4).state.allowedAccounts ↔
      ((votersFor (⟨{1, 2, 3}, []⟩ : PalletState ℕ) 4).length + 1) * 100 ≥
        (⟨{1, 2, 3}, []⟩ : PalletState ℕ).allowedAccounts.card * 51) :=
  ⟨by decide, by decide, by decide, by decide,
    vote_promotes_iff_cross_multiplication 51 ⟨{1, 2, 3}, []⟩ 1 4
      (by decide) (by decide) (by decide) (by decide)⟩

/-- Claim C2: when the quorum is met by the new vote, `vote_for_account`
succeeds, inserts the candidate into the allow-list, removes every ledger
entry keyed by the candidate, and deposits exactly `AccountVoted` then
`AccountAllowed` with the prior voters followed by the casting voter. -/
theorem vote_promote_effects (threshold : Nat) (s : PalletState A)
    (voter candidate : A)
    (h1 : voter ∈ s.allowedAccounts) (h2 : candidate ∉ s.allowedAccounts)
    (h3 : (candidate, voter) ∉ s.votes)
    (hq : threshold ≤
      percentFromRational ((votersFor s candidate).length + 1)
        s.allowedAccounts.card) :
    (vote_for_account threshold s voter candidate).result = none ∧
    (vote_for_account threshold s voter candidate).state.allowedAccounts =
      insert candidate s.allowedAccounts ∧
    (vote_for_account threshold s voter candidate).state.votes =
      s.votes.filter (fun p => p.1 ≠ candidate) ∧
    (vote_for_account threshold s voter candidate).events =
      [Event.AccountVoted voter candidate,
       Event.AccountAllowed candidate (votersFor s candidate ++ [voter])] := by
  rw [vote_eq_of_promote threshold s voter candidate h1 h2 h3 hq]
  exact ⟨rfl, rfl, rfl, rfl⟩

/-- Claim C2 witness: scenario 2 of the spec, voter 2 promotes candidate 4
after voter 1 already voted, with membership `{1, 2, 3}` and threshold 51. -/
theorem vote_promote_effects_witness :
    (2 : ℕ) ∈ (⟨{1, 2, 3}, [(4, 1)]⟩ : PalletState ℕ).allowedAccounts ∧
    (4 : ℕ) ∉ (⟨{1, 2, 3}, [(4, 1)]⟩ : PalletState ℕ).allowedAccounts ∧
    ((4, 2) : ℕ × ℕ) ∉ (⟨{1, 2, 3}, [(4, 1)]⟩ : PalletState ℕ).votes ∧
    51 ≤ percentFromRational
      ((votersFor (⟨{1, 2, 3}, [(4, 1)]⟩ : PalletState ℕ) 4).length + 1)
      (⟨{1, 2, 3}, [(4, 1)]⟩ : PalletState ℕ).allowedAccounts.card ∧
    ((vote_for_account 51 (⟨{1, 2, 3}, [(4, 1)]⟩ : PalletState ℕ) 2 4).result =
        none ∧
      (vote_for_account 51 (⟨{1, 2, 3}, [(4, 1)]⟩ : PalletState ℕ)
          2 4).state.allowedAccounts =
        insert 4 (⟨{1, 2, 3}, [(4, 1)]⟩ : PalletState ℕ).allowedAccounts ∧
      (vote_for_account 51 (⟨{1, 2, 3}, [(4, 1)]⟩ : PalletState ℕ)
          2 4).state.votes =
        (⟨{1, 2, 3}, [(4, 1)]⟩ : PalletState ℕ).votes.filter
          (fun p => p.1 ≠ 4) ∧
      (vote_for_account 51 (⟨{1, 2, 3}, [(4, 1)]⟩ : PalletState ℕ) 2 4).events =
        [Event.AccountVoted 2 4,
         Event.AccountAllowed 4
           (votersFor (⟨{1, 2, 3}, [(4, 1)]⟩ : PalletState ℕ) 4 ++ [2])]) :=
  ⟨by decide, by decide, by decide, by decide,
    vote_promote_effects 51 ⟨{1, 2, 3}, [(4, 1)]⟩ 2 4
      (by decide) (by decide) (by decide) (by decide)⟩

/-- Claim C3: when the quorum is not met by the new vote,
`vote_for_account` succeeds, appends the `(candidate, voter)` pair to the
ledger, deposits only `AccountVoted`, and leaves the allow-list unchanged. -/
theorem vote_record_effects (threshold : Nat) (s : PalletState A)
    (voter candidate : A)
    (h1 : voter ∈ s.allowedAccounts) (h2 : candidate ∉ s.allowedAccounts)
    (h3 : (candidate, voter) ∉ s.votes)
    (hq : ¬ threshold ≤
      percentFromRational ((votersFor s candidate).length + 1)
        s.allowedAccounts.card) :
    (vote_for_account threshold s voter candidate).result = none ∧
    (vote_for_account threshold s voter candidate).state.allowedAccounts =
      s.allowedAccounts ∧
    (vote_for_account threshold s voter candidate).state.votes =
      s.votes ++ [(candidate, voter)] ∧
    (vote_for_account threshold s voter candidate).events =
      [Event.AccountVoted voter candidate] := by
  rw [vote_eq_of_record threshold s voter candidate h1 h2 h3 hq]
  exact ⟨rfl, rfl, rfl, rfl⟩

/-- Claim C3 witness: scenario 1 of the spec, voter 1 votes for candidate
4 under membership `{1, 2, 3}` and threshold 51; the vote is recorded. -/
theorem vote_record_effects_witness :
    (1 : ℕ) ∈ (⟨{1, 2, 3}, []⟩ : PalletState ℕ).allowedAccounts ∧
    (4 : ℕ) ∉ (⟨{1, 2, 3}, []⟩ : PalletState ℕ).allowedAccounts ∧
    ((4, 1) : ℕ × ℕ) ∉ (⟨{1, 2, 3}, []⟩ : PalletState ℕ).votes ∧
    ¬ 51 ≤ percentFromRational
      ((votersFor (⟨{1, 2, 3}, []⟩ : PalletState ℕ) 4).length + 1)
      (⟨{1, 2, 3}, []⟩ : PalletState ℕ).allowedAccounts.card ∧
    ((vote_for_account 51 (⟨{1, 2, 3}, []⟩ : PalletState ℕ) 1 4).result =
        none ∧
      (vote_for_account 51 (⟨{1, 2, 3}, []⟩ : PalletState ℕ)
          1 4).state.allowedAccounts =
        (⟨{1, 2, 3}, []⟩ : PalletState ℕ).allowedAccounts ∧
      (vote_for_account 51 (⟨{1, 2, 3}, []⟩ : PalletState ℕ) 1 4).state.votes =
        (⟨{1, 2, 3}, []⟩ : PalletState ℕ).votes ++ [(4, 1)] ∧
      (vote_for_account 51 (⟨{1, 2, 3}, []⟩ : PalletState ℕ) 1 4).events =
        [Event.AccountVoted 1 4]) :=
  ⟨by decide, by decide, by decide, by decide,
    vote_record_effects 51 ⟨{1, 2, 3}, []⟩ 1 4
      (by decide) (by decide) (by decide) (by decide)⟩

/-- Claim C4: the three guards of `vote_for_account` are checked in the
order `NotAllowedToVote`, `AlreadyAllowed`, `DuplicateVote`, so when
several conditions hold the earliest listed error is returned; when all
three pass the call succeeds. -/
theorem vote_error_order (threshold : Nat) (s : PalletState A)
    (voter candidate : A) :
    (voter ∉ s.allowedAccounts →
      vote_for_account threshold s voter candidate =
        ⟨s, [], some VoteError.NotAllowedToVote⟩) ∧
    (voter ∈ s.allowedAccounts → candidate ∈ s.allowedAccounts →
      vote_for_account threshold s voter candidate =
        ⟨s, [], some VoteError.AlreadyAllowed⟩) ∧
    (voter ∈ s.allowedAccounts → candidate ∉ s.allowedAccounts →
      (candidate, voter) ∈ s.votes →
      vote_for_account threshold s voter candidate =
        ⟨s, [], some VoteError.DuplicateVote⟩) ∧
    (voter ∈ s.allowedAccounts → candidate ∉ s.allowedAccounts →
      (candidate, voter) ∉ s.votes →
      (vote_for_account threshold s voter candidate).result = none) := by
  refine ⟨vote_eq_of_not_allowed threshold s voter candidate,
    vote_eq_of_already_allowed threshold s voter candidate,
    vote_eq_of_duplicate threshold s voter candidate, ?_⟩
  intro h1 h2 h3
  by_cases h4 : threshold ≤
      percentFromRational ((votersFor s candidate).length + 1)
        s.allowedAccounts.card
  · rw [vote_eq_of_promote threshold s voter candidate h1 h2 h3 h4]
  · rw [vote_eq_of_record threshold s voter candidate h1 h2 h3 h4]

/-- Claim C4 witness: the four branches exercised on concrete states
where, in particular, several failure conditions hold at once (voter 5 is
not a member and candidate 2 is already a member, yet `NotAllowedToVote`
wins; voter 1 already voted for member candidate 2 is impossible, so the
duplicate case uses candidate 4). -/
theorem vote_error_order_witness :
    vote_for_account 51 (⟨{1, 2, 3}, []⟩ : PalletState ℕ) 5 2 =
      ⟨⟨{1, 2, 3}, []⟩, [], some VoteError.NotAllowedToVote⟩ ∧
    vote_for_account 51 (⟨{1, 2, 3}, []⟩ : PalletState ℕ) 1 2 =
      ⟨⟨{1, 2, 3}, []⟩, [], some VoteError.AlreadyAllowed⟩ ∧
    vote_for_account 51 (⟨{1, 2, 3}, [(4, 1)]⟩ : PalletState ℕ) 1 4 =
      ⟨⟨{1, 2, 3}, [(4, 1)]⟩, [], some VoteError.DuplicateVote⟩ ∧
    (vote_for_account 51 (⟨{1, 2, 3}, []⟩ : PalletState ℕ) 1 4).result =
      none :=
  ⟨(vote_error_order 51 ⟨{1, 2, 3}, []⟩ 5 2).1 (by decide),
    (vote_error_order 51 ⟨{1, 2, 3}, []⟩ 1 2).2.1 (by decide) (by decide),
    (vote_error_order 51 ⟨{1, 2, 3}, [(4, 1)]⟩ 1 4).2.2.1 (by decide)
      (by decide) (by decide),
    (vote_error_order 51 ⟨{1, 2, 3}, []⟩ 1 4).2.2.2 (by decide) (by decide)
      (by decide)⟩

/-- Claim C5: a failing `vote_for_account` call is a no-op: whenever it
returns any error, both stores are exactly as before the call and no
event is deposited. -/
theorem vote_error_is_noop (threshold : Nat) (s : PalletState A)
    (voter candidate : A) (e : VoteError)
    (h : (vote_for_account threshold s voter candidate).result = some e) :
    (vote_for_account threshold s voter candidate).state = s ∧
    (vote_for_account threshold s voter candidate).events = [] := by
  by_cases h1 : voter ∈ s.allowedAccounts
  · by_cases h2 : candidate ∈ s.allowedAccounts
    · rw [vote_eq_of_already_allowed threshold s voter candidate h1 h2]
      exact ⟨rfl, rfl⟩
    · by_cases h3 : (candidate, voter) ∈ s.votes
      · rw [vote_eq_of_duplicate threshold s voter candidate h1 h2 h3]
        exact ⟨rfl, rfl⟩
      · by_cases h4 : threshold ≤
            percentFromRational ((votersFor s candidate).length + 1)
              s.allowedAccounts.card
        · rw [vote_eq_of_promote threshold s voter candidate h1 h2 h3 h4] at h
          exact Option.noConfusion h
        · rw [vote_eq_of_record threshold s voter candidate h1 h2 h3 h4] at h
          exact Option.noConfusion h
  · rw [vote_eq_of_not_allowed threshold s voter candidate h1]
    exact ⟨rfl, rfl⟩

/-- Claim C5 witness: the failing call of a non-member voter leaves the
state `⟨{1, 2, 3}, [(4, 1)]⟩` untouched and deposits nothing. -/
theorem vote_error_is_noop_witness :
    (vote_for_account 51 (⟨{1, 2, 3}, [(4, 1)]⟩ : PalletState ℕ) 5 6).result =
      some VoteError.NotAllowedToVote ∧
    ((vote_for_account 51 (⟨{1, 2, 3}, [(4, 1)]⟩ : PalletState ℕ) 5 6).state =
        ⟨{1, 2, 3}, [(4, 1)]⟩ ∧
      (vote_for_account 51 (⟨{1, 2, 3}, [(4, 1)]⟩ : PalletState ℕ) 5 6).events =
        []) :=
  ⟨by decide,
    vote_error_is_noop 51 ⟨{1, 2, 3}, [(4, 1)]⟩ 5 6 VoteError.NotAllowedToVote
      (by decide)⟩

/-- Claim C6: the admission gate rejects with `BadSigner` exactly when the
call matcher classifies the call as restricted and the signer is not in
the allow-list; in every other case it accepts with priority taken from
the declared weight of the call, maximal longevity, and `propagate = true`. -/
theorem validate_gate_spec {C : Type} (matchesCall : C → Bool)
    (allowed : Finset A) (who : A) (call : C) (refTime : Nat) :
    (validate matchesCall allowed who call refTime =
        Except.error TxError.BadSigner ↔
      (matchesCall call = true ∧ who ∉ allowed)) ∧
    (¬ (matchesCall call = true ∧ who ∉ allowed) →
      validate matchesCall allowed who call refTime =
        Except.ok ⟨refTime, transactionLongevityMax, true⟩) := by
  unfold validate
  by_cases hc : matchesCall call = true ∧ who ∉ allowed
  · rw [if_pos hc]
    exact ⟨iff_of_true rfl hc, fun hn => absurd hc hn⟩
  · rw [if_neg hc]
    exact ⟨iff_of_false (fun he => Except.noConfusion he) hc, fun _ => rfl⟩

/-- Claim C6 witness: over calls modelled as booleans with the identity
matcher, non-member 4 is rejected on a restricted call, member 2 is
accepted on the same call, and non-member 4 is accepted on an
unrestricted call, always with the default admission metadata. -/
theorem validate_gate_spec_witness :
    validate (fun b : Bool => b) ({1, 2, 3} : Finset ℕ) 4 true 7 =
      Except.error TxError.BadSigner ∧
    validate (fun b : Bool => b) ({1, 2, 3} : Finset ℕ) 2 true 7 =
      Except.ok ⟨7, transactionLongevityMax, true⟩ ∧
    validate (fun b : Bool => b) ({1, 2, 3} : Finset ℕ) 4 false 7 =
      Except.ok ⟨7, transactionLongevityMax, true⟩ :=
  ⟨(validate_gate_spec (fun b : Bool => b) {1, 2, 3} 4 true 7).1.mpr
      ⟨rfl, by decide⟩,
    (validate_gate_spec (fun b : Bool => b) {1, 2, 3} 2 true 7).2 (by decide),
    (validate_gate_spec (fun b : Bool => b) {1, 2, 3} 4 false 7).2 (by decide)⟩

/-- Claim C7: in every state reachable from a genesis state by
`vote_for_account` calls, no member of the allow-list appears as the
candidate key of any ledger entry. -/
theorem member_not_candidate_key {threshold : Nat} {s : PalletState A}
    (h : Reachable threshold s) :
    ∀ p ∈ s.votes, p.1 ∉ s.allowedAccounts :=
  fun p hp => ((inv_of_reachable h).1 p hp).2

/-- Claim C7 witness: after one recorded vote from genesis `{1, 2, 3}`,
the candidate key 4 of the ledger entry `(4, 1)` is not a member. -/
theorem member_not_candidate_key_witness :
    ((4, 1) : ℕ × ℕ) ∈
      (vote_for_account 51 (⟨{1, 2, 3}, []⟩ : PalletState ℕ)
        1 4).state.votes ∧
    ((4, 1) : ℕ × ℕ).1 ∉
      (vote_for_account 51 (⟨{1, 2, 3}, []⟩ : PalletState ℕ)
        1 4).state.allowedAccounts :=
  ⟨by decide,
    member_not_candidate_key
      (Reachable.step 1 4 (Reachable.genesis {1, 2, 3})) (4, 1) (by decide)⟩

/-- Claim C8: membership is monotonic and final: any call, succeeding or
failing, keeps an existing member a member; and in a reachable state a
member has no ledger entries as candidate, before or after any further
call. -/
theorem membership_monotone_and_final (threshold : Nat) (s : PalletState A)
    (a voter candidate : A) :
    (a ∈ s.allowedAccounts →
      a ∈ (vote_for_account threshold s voter candidate).state.allowedAccounts) ∧
    (Reachable threshold s → a ∈ s.allowedAccounts →
      votersFor s a = [] ∧
      votersFor (vote_for_account threshold s voter candidate).state a = []) := by
  refine ⟨allowed_monotone threshold s voter candidate a, fun hr ha => ?_⟩
  refine ⟨votersFor_eq_nil_of_mem (inv_of_reachable hr) ha, ?_⟩
  exact votersFor_eq_nil_of_mem
    (inv_of_reachable (Reachable.step voter candidate hr))
    (allowed_monotone threshold s voter candidate a ha)

/-- Claim C8 witness: member 1 of genesis `{1, 2, 3}` stays a member
across the call of voter 2 for candidate 4, with no ledger entries as
candidate before or after. -/
theorem membership_monotone_and_final_witness :
    (1 : ℕ) ∈ (⟨{1, 2, 3}, []⟩ : PalletState ℕ).allowedAccounts ∧
    (1 : ℕ) ∈ (vote_for_account 51 (⟨{1, 2, 3}, []⟩ : PalletState ℕ)
      2 4).state.allowedAccounts ∧
    (votersFor (⟨{1, 2, 3}, []⟩ : PalletState ℕ) 1 = [] ∧
      votersFor (vote_for_account 51 (⟨{1, 2, 3}, []⟩ : PalletState ℕ)
        2 4).state 1 = []) :=
  ⟨by decide,
    (membership_monotone_and_final 51 ⟨{1, 2, 3}, []⟩ 1 2 4).1 (by decide),
    (membership_monotone_and_final 51 ⟨{1, 2, 3}, []⟩ 1 2 4).2
      (Reachable.genesis {1, 2, 3}) (by decide)⟩

/-- Claim C9: whenever `vote_for_account` reaches the quorum computation
(that is, it does not fail the `NotAllowedToVote` guard), the denominator
`votes_required = AllowedAccounts::iter().count()` is at least 1: the
caller itself is a member, so the zero-denominator fallback of
`percentFromRational` is unreachable. -/
theorem votes_required_positive (threshold : Nat) (s : PalletState A)
    (voter candidate : A)
    (h : (vote_for_account threshold s voter candidate).result ≠
      some VoteError.NotAllowedToVote) :
    1 ≤ s.allowedAccounts.card := by
  by_cases h1 : voter ∈ s.allowedAccounts
  · exact Finset.card_pos.mpr ⟨voter, h1⟩
  · exact absurd
      (by rw [vote_eq_of_not_allowed threshold s voter candidate h1]) h

/-- Claim C9 witness: the successful call of voter 1 for candidate 4 from
genesis `{1, 2, 3}` has a positive denominator. -/
theorem votes_required_positive_witness :
    (vote_for_account 51 (⟨{1, 2, 3}, []⟩ : PalletState ℕ) 1 4).result ≠
      some VoteError.NotAllowedToVote ∧
    1 ≤ (⟨{1, 2, 3}, []⟩ : PalletState ℕ).allowedAccounts.card :=
  ⟨by decide, votes_required_positive 51 ⟨{1, 2, 3}, []⟩ 1 4 (by decide)⟩

/-- Claim C10: in every reachable state, when the three guards pass, the
numerator `votes_for` never exceeds the denominator `votes_required`: the
recorded voters for the candidate are distinct members and the casting
voter is a further distinct member. -/
theorem votes_for_le_votes_required {threshold : Nat} {s : PalletState A}
    (hr : Reachable threshold s) (voter candidate : A)
    (h1 : voter ∈ s.allowedAccounts) (h2 : candidate ∉ s.allowedAccounts)
    (h3 : (candidate, voter) ∉ s.votes) :
    (votersFor s candidate).length + 1 ≤ s.allowedAccounts.card := by
  obtain ⟨hmem, hnd⟩ := inv_of_reachable hr
  have hndv : (votersFor s candidate).Nodup := nodup_votersFor hnd candidate
  have hvnot : voter ∉ (votersFor s candidate).toFinset := by
    rw [List.mem_toFinset, mem_votersFor]
    exact h3
  have hsub : insert voter (votersFor s candidate).toFinset ⊆
      s.allowedAccounts := by
    intro x hx
    rcases Finset.mem_insert.mp hx with rfl | hx
    · exact h1
    · rw [List.mem_toFinset, mem_votersFor] at hx
      exact (hmem _ hx).1
  have hcard : (votersFor s candidate).length + 1 =
      (insert voter (votersFor s candidate).toFinset).card := by
    rw [Finset.card_insert_of_not_mem hvnot,
      List.toFinset_card_of_nodup hndv]
  rw [hcard]
  exact Finset.card_le_card hsub

/-- Claim C10 witness: in the reachable state with ledger `[(4, 1)]` and
membership `{1, 2, 3}`, the quorum numerator for candidate 4 and casting
voter 2 is 2, at most the membership size 3. -/
theorem votes_for_le_votes_required_witness :
    (2 : ℕ) ∈ (vote_for_account 51 (⟨{1, 2, 3}, []⟩ : PalletState ℕ)
      1 4).state.allowedAccounts ∧
    (4 : ℕ) ∉ (vote_for_account 51 (⟨{1, 2, 3}, []⟩ : PalletState ℕ)
      1 4).state.allowedAccounts ∧
    ((4, 2) : ℕ × ℕ) ∉ (vote_for_account 51
      (⟨{1, 2, 3}, []⟩ : PalletState ℕ) 1 4).state.votes ∧
    (votersFor (vote_for_account 51 (⟨{1, 2, 3}, []⟩ : PalletState ℕ)
        1 4).state 4).length + 1 ≤
      (vote_for_account 51 (⟨{1, 2, 3}, []⟩ : PalletState ℕ)
        1 4).state.allowedAccounts.card :=
  ⟨by decide, by decide, by decide,
    votes_for_le_votes_required
      (Reachable.step 1 4 (Reachable.genesis {1, 2, 3})) 2 4
      (by decide) (by decide) (by decide)⟩

/-- Scenario 1 of the spec, also the `one_vote_is_not_enough_to_add_account`
test: with membership `{1, 2, 3}` and threshold 51, one vote for 4 records
the vote without promotion. -/
theorem scenario_one_vote_records :
    vote_for_account 51 (⟨{1, 2, 3}, []⟩ : PalletState ℕ) 1 4 =
      ⟨⟨{1, 2, 3}, [(4, 1)]⟩, [Event.AccountVoted 1 4], none⟩ := by
  decide

/-- Scenario 2 of the spec, also the `test_adding_to_allowlist` test: the
second vote promotes 4 with `voted_for = [1, 2]` and drains the ledger. -/
theorem scenario_second_vote_promotes :
    vote_for_account 51 (⟨{1, 2, 3}, [(4, 1)]⟩ : PalletState ℕ) 2 4 =
      ⟨⟨insert 4 {1, 2, 3}, []⟩,
       [Event.AccountVoted 2 4, Event.AccountAllowed 4 [1, 2]], none⟩ := by
  decide

end AccountFilter
